import Mathlib

/-!
Shallow embedding of the finance_analysis_pipeline ingestion core:
  * `src/common/state_store.py` — run id generation and run metadata records;
  * `src/extract/yahoo_prices.py` — OHLCV price extraction (batch download,
    single/multi ticker reshape, dropping rows with null close/volume);
  * `src/extract/yahoo_company_info.py` — per-symbol company info extraction
    with degraded records on per-symbol failure.

External effects are modelled as explicit inputs: the system clock is a
`DateTime` (or `Nat`) argument, the random source a `Nat` argument, and the
Yahoo Finance network calls are function arguments returning `Except` values
(`Except.error` models a raised exception).  Numeric cell values are modelled
as `Option Int` (`none` models a NaN/null cell); no claim computes with the
float values themselves, only with their presence or absence.
-/

namespace FinancePipeline

/-- A clock reading at second granularity, as produced by `datetime.now()`
and consumed by `strftime('%Y%m%d_%H%M%S')`. -/
structure DateTime where
  year : Nat
  month : Nat
  day : Nat
  hour : Nat
  minute : Nat
  second : Nat
deriving DecidableEq

/-- Ranges guaranteed by Python's `datetime.now()` for the six formatted
fields (Gregorian calendar, 4-digit year). -/
def DateTime.Valid (t : DateTime) : Prop :=
  1583 ≤ t.year ∧ t.year ≤ 9999 ∧ 1 ≤ t.month ∧ t.month ≤ 12 ∧
  1 ≤ t.day ∧ t.day ≤ 31 ∧ t.hour ≤ 23 ∧ t.minute ≤ 59 ∧ t.second ≤ 59

instance (t : DateTime) : Decidable t.Valid := by
  unfold DateTime.Valid; exact inferInstance

/-- The timestamp collapsed to one number, ordered exactly as the clock:
`t1` is in an earlier second than `t2` iff `tsKey t1 < tsKey t2`. -/
def tsKey (t : DateTime) : Nat :=
  ((((t.year * 100 + t.month) * 100 + t.day) * 100 + t.hour) * 100 +
    t.minute) * 100 + t.second

/-- Fixed-width base-`b` rendering of `n` (most significant digit first),
as produced by the zero-padded `strftime` codes and by `uuid4().hex[:8]`. -/
def padBase (b : Nat) : Nat → Nat → List Char
  | 0, _ => []
  | w + 1, n => Nat.digitChar (n / b ^ w) :: padBase b w (n % b ^ w)

/-- Character list of
`f"run_{datetime.now().strftime('%Y%m%d_%H%M%S')}_{uuid4().hex[:8]}"`:
the literal prefix, six zero-padded decimal fields with the `strftime`
underscore, then eight lowercase hex digits of the 32-bit random value. -/
def runIdChars (t : DateTime) (r : Nat) : List Char :=
  'r' :: 'u' :: 'n' :: '_' ::
    (padBase 10 4 t.year ++ (padBase 10 2 t.month ++ (padBase 10 2 t.day ++
      ('_' :: (padBase 10 2 t.hour ++ (padBase 10 2 t.minute ++
        (padBase 10 2 t.second ++ ('_' :: padBase 16 8 r))))))))

/-- `generate_run_id` from `state_store.py`; `t` is the `datetime.now()`
reading and `r` the 32-bit value behind `uuid.uuid4().hex[:8]`. -/
def generate_run_id (t : DateTime) (r : Nat) : String :=
  ⟨runIdChars t r⟩

/-- The dictionary returned by `create_run_metadata`, fields in the
source's key order. -/
structure RunRecord where
  run_id : String
  dataset_name : String
  run_timestamp : DateTime
  status : String
  records_loaded : Int
  error_message : Option String
deriving DecidableEq

/-- `create_run_metadata` from `state_store.py`; `now`/`rand` model the
clock and random source read during the call. -/
def create_run_metadata (dataset_name status : String) (records_loaded : Int)
    (error_message : Option String) (now : DateTime) (rand : Nat) : RunRecord :=
  ⟨generate_run_id now rand, dataset_name, now, status, records_loaded,
    error_message⟩

/-- `create_run_metadata` invoked with every optional argument left at its
Python default (`status="started"`, `records_loaded=0`, `error_message=None`). -/
def create_run_metadata_defaults (dataset_name : String) (now : DateTime)
    (rand : Nat) : RunRecord :=
  create_run_metadata dataset_name "started" 0 none now rand

/-! ## Price extraction (`yahoo_prices.py`) -/

/-- One raw row of a per-ticker frame from `yf.download` (date index plus
the OHLCV columns; `none` models a NaN cell).  `openv` stands for the
source's `open` column. -/
structure RawRow where
  date : Nat
  openv : Option Int
  high : Option Int
  low : Option Int
  close : Option Int
  adj_close : Option Int
  volume : Option Int
deriving DecidableEq

/-- One row of the extractor's output frame, columns in the source's
`final_columns` order plus `ingested_at`. -/
structure PriceRow where
  symbol : String
  date : Nat
  openv : Option Int
  high : Option Int
  low : Option Int
  close : Option Int
  adj_close : Option Int
  volume : Option Int
  ingested_at : Nat
deriving DecidableEq

/-- The reshape of one raw row: tag with the ticker symbol and the
`ingested_at` extraction timestamp. -/
def toPriceRow (sym : String) (now : Nat) (r : RawRow) : PriceRow :=
  ⟨sym, r.date, r.openv, r.high, r.low, r.close, r.adj_close, r.volume, now⟩

/-- `df.dropna(subset=['close', 'volume'])`. -/
def dropnaCloseVolume (rows : List PriceRow) : List PriceRow :=
  rows.filter (fun r => r.close.isSome && r.volume.isSome)

/-- Shape of a successful `yf.download` result: a plain frame (single-ticker
request) or a frame grouped by ticker (multi-ticker request); a ticker
absent from the grouped frame raises `KeyError` on `data[ticker]`. -/
inductive YfData where
  | singleFrame : List RawRow → YfData
  | groupedFrame : List (String × List RawRow) → YfData

/-- The request the extractor sends to `yf.download`: an explicit
`start=`/`end=` range or a relative `period=` keyword. -/
inductive DownloadReq where
  | byRange : String → String → DownloadReq
  | byPeriod : String → DownloadReq
deriving DecidableEq

/-- The branch `if start_date and end_date:` of `extract_yahoo_prices`
(Python truthiness: `None` and the empty string are falsy). -/
def downloadRequest (start_date end_date : Option String) (period : String) :
    DownloadReq :=
  match start_date, end_date with
  | some s, some e =>
      if s = "" ∨ e = "" then DownloadReq.byPeriod period
      else DownloadReq.byRange s e
  | _, _ => DownloadReq.byPeriod period

/-- The multi-ticker reshape loop: per ticker, `data[ticker]` succeeds and
the frame is kept, or `KeyError` is caught and the ticker skipped. -/
def reshapeMulti (tickers : List String) (groups : List (String × List RawRow)) :
    List (String × List RawRow) :=
  tickers.filterMap (fun t => (groups.lookup t).map (fun rows => (t, rows)))

/-- `extract_yahoo_prices` from `yahoo_prices.py`.  `download` models the
`yf.download` call (`Except.error` = the aggregate request raised, which the
outer `except` re-raises).  Branches follow the source: a singleton ticker
list takes the plain-frame path; otherwise the grouped frame is reshaped
ticker by ticker, an empty reshape returns the empty frame, and the result
is column-normalised, stamped with `ingested_at`, and stripped of rows with
null `close`/`volume`.  A singleton request answered by a grouped frame
makes the column normalisation raise (caught and re-raised); a multi-ticker
request answered by a plain frame makes every `data[ticker]` lookup raise
`KeyError`, so every ticker is skipped and the empty frame is returned. -/
def extract_yahoo_prices (tickers : List String)
    (start_date end_date : Option String) (period : String)
    (download : DownloadReq → Except String YfData) (now : Nat) :
    Except String (List PriceRow) :=
  match download (downloadRequest start_date end_date period) with
  | Except.error e => Except.error e
  | Except.ok data =>
    match tickers, data with
    | [t], YfData.singleFrame rows =>
        Except.ok (dropnaCloseVolume (rows.map (toPriceRow t now)))
    | [_], YfData.groupedFrame _ => Except.error "AttributeError"
    | ts, YfData.groupedFrame groups =>
        let dfs := reshapeMulti ts groups
        if dfs.isEmpty then Except.ok []
        else
          Except.ok (dropnaCloseVolume
            (dfs.flatMap (fun g => g.2.map (toPriceRow g.1 now))))
    | _, YfData.singleFrame _ => Except.ok []

/-! ## Company info extraction (`yahoo_company_info.py`) -/

/-- Universe of dictionary values appearing in company-info records.
`vNone` models Python `None`; numeric provider values are modelled at
whichever constructor a given test input uses, since no claim computes
with them. -/
inductive PyVal where
  | vStr : String → PyVal
  | vNat : Nat → PyVal
  | vNone : PyVal
deriving DecidableEq

/-- `info.get(k)` — `None` when the key is absent. -/
def infoGet (info : List (String × PyVal)) (k : String) : PyVal :=
  (info.lookup k).getD PyVal.vNone

/-- `info.get(k, d)` — the default `d` when the key is absent. -/
def infoGetD (info : List (String × PyVal)) (k : String) (d : PyVal) : PyVal :=
  (info.lookup k).getD d

/-- The full per-symbol record built in the `try` body of
`extract_yahoo_company_info`, keys in source order. -/
def makeCompanyRecord (sym : String) (info : List (String × PyVal))
    (now : Nat) : List (String × PyVal) :=
  [("symbol", PyVal.vStr sym),
   ("company_name",
     infoGetD info "longName" (infoGetD info "shortName" (PyVal.vStr sym))),
   ("sector", infoGet info "sector"),
   ("industry", infoGet info "industry"),
   ("market_cap", infoGet info "marketCap"),
   ("enterprise_value", infoGet info "enterpriseValue"),
   ("pe_ratio", infoGet info "trailingPE"),
   ("forward_pe", infoGet info "forwardPE"),
   ("peg_ratio", infoGet info "pegRatio"),
   ("price_to_book", infoGet info "priceToBook"),
   ("dividend_yield", infoGet info "dividendYield"),
   ("beta", infoGet info "beta"),
   ("fifty_two_week_high", infoGet info "fiftyTwoWeekHigh"),
   ("fifty_two_week_low", infoGet info "fiftyTwoWeekLow"),
   ("fifty_day_average", infoGet info "fiftyDayAverage"),
   ("two_hundred_day_average", infoGet info "twoHundredDayAverage"),
   ("shares_outstanding", infoGet info "sharesOutstanding"),
   ("float_shares", infoGet info "floatShares"),
   ("employees", infoGet info "fullTimeEmployees"),
   ("country", infoGet info "country"),
   ("city", infoGet info "city"),
   ("website", infoGet info "website"),
   ("business_summary", infoGet info "longBusinessSummary"),
   ("ingested_at", PyVal.vNat now)]

/-- The minimal record appended in the `except` branch: only `symbol`,
`ingested_at` and the caught exception text under `error`. -/
def degradedCompanyRecord (sym : String) (now : Nat) (e : String) :
    List (String × PyVal) :=
  [("symbol", PyVal.vStr sym), ("ingested_at", PyVal.vNat now),
   ("error", PyVal.vStr e)]

/-- One iteration of the per-symbol loop: the `try` body on a successful
fetch, the `except` branch (degraded record) on a raised fetch. -/
def companyRow (fetchInfo : String → Except String (List (String × PyVal)))
    (now : Nat) (sym : String) : List (String × PyVal) :=
  match fetchInfo sym with
  | Except.ok info => makeCompanyRecord sym info now
  | Except.error e => degradedCompanyRecord sym now e

/-- `extract_yahoo_company_info` from `yahoo_company_info.py`.  `fetchInfo`
models `yf.Ticker(sym).info` (`Except.error e` = the fetch raised with
message `e`); the per-symbol `try/except` turns a failure into a degraded
record and continues with the remaining symbols. -/
def extract_yahoo_company_info (tickers : List String)
    (fetchInfo : String → Except String (List (String × PyVal)))
    (now : Nat) : List (List (String × PyVal)) :=
  tickers.map (companyRow fetchInfo now)

/-! ## Concrete sample inputs used by witnesses and counterexamples -/

/-- A fixed clock reading (2024-01-01 00:00:00). -/
def dt0 : DateTime := ⟨2024, 1, 1, 0, 0, 0⟩

/-- A later fixed clock reading (2024-05-02 03:04:05). -/
def dt1 : DateTime := ⟨2024, 5, 2, 3, 4, 5⟩

/-- A raw price row with both critical cells present. -/
def sampleRaw : RawRow := ⟨0, none, none, none, some 1, none, some 2⟩

/-- A raw price row with a null `close` cell (to be dropped). -/
def sampleRaw2 : RawRow := ⟨1, some 3, none, none, none, none, some 4⟩

/-- A download stub answering every request with a plain single-ticker
frame. -/
def dlSingleOk : DownloadReq → Except String YfData :=
  fun _ => Except.ok (YfData.singleFrame [sampleRaw, sampleRaw2])

/-- A download stub answering every request with a grouped frame holding
data for `"AAA"` only. -/
def dlGroupedOk : DownloadReq → Except String YfData :=
  fun _ => Except.ok (YfData.groupedFrame [("AAA", [sampleRaw])])

/-- A company-info fetch stub that always raises. -/
def fetchFailW : String → Except String (List (String × PyVal)) :=
  fun _ => Except.error "HTTPError"

/-- A company-info fetch stub succeeding for `"AAA"` and raising for every
other symbol. -/
def fetchMixedW : String → Except String (List (String × PyVal)) :=
  fun s =>
    if s = "AAA" then Except.ok [("sector", PyVal.vStr "Tech")]
    else Except.error "boom"

/-- A lowercase hexadecimal digit, the character set of `uuid4().hex`. -/
def isLowerHexCh (c : Char) : Bool :=
  c.isDigit || ('a' ≤ c && c ≤ 'f')

/-- Membership in the dropna output forces both critical cells present. -/
theorem dropnaCloseVolume_mem {r : PriceRow} {l : List PriceRow}
    (h : r ∈ dropnaCloseVolume l) : r.close.isSome ∧ r.volume.isSome := by
  have h' := List.mem_filter.mp h
  simpa using h'.2

/-- C3: `create_run_metadata` with all defaults always succeeds (it is a
total function of its explicit clock/random inputs) and returns a record
with `status = "started"`, `records_loaded = 0`, `error_message = none`,
the given `dataset_name`, a run id freshly generated from the call-time
clock and random value, and `run_timestamp` stamped at call time. -/
theorem create_run_metadata_defaults_spec (name : String) (t : DateTime)
    (r : Nat) :
    (create_run_metadata_defaults name t r).status = "started" ∧
    (create_run_metadata_defaults name t r).records_loaded = 0 ∧
    (create_run_metadata_defaults name t r).error_message = none ∧
    (create_run_metadata_defaults name t r).dataset_name = name ∧
    (create_run_metadata_defaults name t r).run_id = generate_run_id t r ∧
    (create_run_metadata_defaults name t r).run_timestamp = t :=
  ⟨rfl, rfl, rfl, rfl, rfl, rfl⟩

/-- C1 counterexample: a call with `status = "started"` and an explicit
`error_message` argument yields a record whose `error_message` is present
even though the status is not `"failed"` — the constructor does not enforce
the claimed coupling. -/
theorem error_message_independent_of_status_cex :
    (create_run_metadata "X" "started" 0 (some "boom") dt0 0).status =
        "started" ∧
    (create_run_metadata "X" "started" 0 (some "boom") dt0 0).error_message ≠
        none :=
  ⟨rfl, fun h => Option.noConfusion h⟩

/-- C1 amended: the returned record's `error_message` is exactly the
`error_message` argument, whatever the status; in particular every call
that leaves `error_message` at its default `None` (e.g. an all-defaults
call) yields a record with `error_message = none`. -/
theorem create_run_metadata_error_message_eq_arg (name status : String)
    (rl : Int) (em : Option String) (t : DateTime) (r : Nat) :
    (create_run_metadata name status rl em t r).error_message = em ∧
    (create_run_metadata_defaults name t r).error_message = none :=
  ⟨rfl, rfl⟩

/-- C8: when both a non-empty explicit date range and a period keyword are
given, the request sent to `yf.download` is the explicit range (the period
argument does not appear in it), and the extraction result is unchanged
under any replacement of the period argument. -/
theorem extract_yahoo_prices_range_precedence (s e : String)
    (hs : s ≠ "") (he : e ≠ "") (p p' : String) (tickers : List String)
    (download : DownloadReq → Except String YfData) (now : Nat) :
    downloadRequest (some s) (some e) p = DownloadReq.byRange s e ∧
    extract_yahoo_prices tickers (some s) (some e) p download now =
      extract_yahoo_prices tickers (some s) (some e) p' download now := by
  have h1 : downloadRequest (some s) (some e) p = DownloadReq.byRange s e := by
    simp [downloadRequest, hs, he]
  have h2 : downloadRequest (some s) (some e) p' = DownloadReq.byRange s e := by
    simp [downloadRequest, hs, he]
  refine ⟨h1, ?_⟩
  unfold extract_yahoo_prices
  rw [h1, h2]

/-- C8 witness at a concrete range, two concrete periods, and a concrete
download stub. -/
theorem extract_yahoo_prices_range_precedence_witness :
    downloadRequest (some "2024-01-01") (some "2024-02-01") "1y" =
      DownloadReq.byRange "2024-01-01" "2024-02-01" ∧
    extract_yahoo_prices ["AAA"] (some "2024-01-01") (some "2024-02-01")
        "1y" dlSingleOk 7 =
      extract_yahoo_prices ["AAA"] (some "2024-01-01") (some "2024-02-01")
        "5d" dlSingleOk 7 :=
  extract_yahoo_prices_range_precedence "2024-01-01" "2024-02-01"
    (by decide) (by decide) "1y" "5d" ["AAA"] dlSingleOk 7

/-- C9: on the empty symbol list, the price extractor returns the empty
table (provided the aggregate download call itself returns, which it does
vacuously here) and the company-info extractor returns the empty table;
neither raises. -/
theorem extract_empty_symbol_list (start_date end_date : Option String)
    (period : String) (download : DownloadReq → Except String YfData)
    (fetchInfo : String → Except String (List (String × PyVal)))
    (now nowc : Nat) (data : YfData)
    (hdl : download (downloadRequest start_date end_date period) =
      Except.ok data) :
    extract_yahoo_prices [] start_date end_date period download now =
        Except.ok [] ∧
    extract_yahoo_company_info [] fetchInfo nowc = [] := by
  constructor
  · unfold extract_yahoo_prices
    rw [hdl]
    cases data with
    | singleFrame rows => rfl
    | groupedFrame groups => rfl
  · rfl

/-- C9 witness at concrete download and fetch stubs. -/
theorem extract_empty_symbol_list_witness :
    extract_yahoo_prices [] none none "1y" dlGroupedOk 7 = Except.ok [] ∧
    extract_yahoo_company_info [] fetchFailW 7 = [] :=
  extract_empty_symbol_list none none "1y" dlGroupedOk fetchFailW 7 7 _ rfl

/-- C10: the company-info extractor returns exactly one record per input
symbol — the output has one row per index of the input list, in input
order, whose `symbol` entry is that index's ticker, whether the fetch for
it succeeded or raised. -/
theorem extract_yahoo_company_info_one_row_per_symbol (tickers : List String)
    (fetchInfo : String → Except String (List (String × PyVal)))
    (now : Nat) (i : Nat) (h : i < tickers.length) :
    (extract_yahoo_company_info tickers fetchInfo now).length =
        tickers.length ∧
    ∃ rec, (extract_yahoo_company_info tickers fetchInfo now)[i]? = some rec ∧
      rec.lookup "symbol" = some (PyVal.vStr (tickers.get ⟨i, h⟩)) := by
  refine ⟨by simp [extract_yahoo_company_info], ?_⟩
  refine ⟨companyRow fetchInfo now (tickers.get ⟨i, h⟩), ?_, ?_⟩
  · rw [extract_yahoo_company_info, List.getElem?_map,
      List.getElem?_eq_getElem h]
    rfl
  · unfold companyRow
    cases fetchInfo (tickers.get ⟨i, h⟩) with
    | ok info => rfl
    | error e => rfl

/-- C10 witness: two symbols, one succeeding and one raising, checked at
index 1. -/
theorem extract_yahoo_company_info_one_row_per_symbol_witness :
    (extract_yahoo_company_info ["AAA", "BBB"] fetchMixedW 7).length =
        (["AAA", "BBB"] : List String).length ∧
    ∃ rec,
      (extract_yahoo_company_info ["AAA", "BBB"] fetchMixedW 7)[1]? =
          some rec ∧
      rec.lookup "symbol" =
        some (PyVal.vStr ((["AAA", "BBB"] : List String).get
          ⟨1, by decide⟩)) :=
  extract_yahoo_company_info_one_row_per_symbol ["AAA", "BBB"] fetchMixedW 7
    1 (by decide)

/-- C6: when the fetch for a symbol raises, the company-info extractor does
not raise: that symbol's row is the degraded record holding exactly the
keys `symbol`, `ingested_at` and `error` (the caught exception text), and
the remaining symbols are still processed (one row per input symbol). -/
theorem extract_yahoo_company_info_degraded_on_failure (tickers : List String)
    (fetchInfo : String → Except String (List (String × PyVal)))
    (now : Nat) (i : Nat) (h : i < tickers.length) (e : String)
    (hf : fetchInfo (tickers.get ⟨i, h⟩) = Except.error e) :
    (extract_yahoo_company_info tickers fetchInfo now).length =
        tickers.length ∧
    (extract_yahoo_company_info tickers fetchInfo now)[i]? =
      some (degradedCompanyRecord (tickers.get ⟨i, h⟩) now e) := by
  refine ⟨by simp [extract_yahoo_company_info], ?_⟩
  rw [extract_yahoo_company_info, List.getElem?_map,
    List.getElem?_eq_getElem h]
  rw [List.get_eq_getElem] at hf
  simp [companyRow, hf]

/-- C6 witness: `"BBB"` raises with message `"boom"` while `"AAA"`
succeeds. -/
theorem extract_yahoo_company_info_degraded_on_failure_witness :
    (extract_yahoo_company_info ["AAA", "BBB"] fetchMixedW 7).length =
        (["AAA", "BBB"] : List String).length ∧
    (extract_yahoo_company_info ["AAA", "BBB"] fetchMixedW 7)[1]? =
      some (degradedCompanyRecord ((["AAA", "BBB"] : List String).get
        ⟨1, by decide⟩) 7 "boom") :=
  extract_yahoo_company_info_degraded_on_failure ["AAA", "BBB"] fetchMixedW 7
    1 (by decide) "boom" rfl

/-- C7: whenever the price extractor returns successfully, every row of the
returned table has a present (non-null) `close` cell and a present
`volume` cell — rows with a null critical cell are dropped before the
table is handed back. -/
theorem extract_yahoo_prices_no_null_close_volume (tickers : List String)
    (start_date end_date : Option String) (period : String)
    (download : DownloadReq → Except String YfData) (now : Nat)
    (rows : List PriceRow)
    (h : extract_yahoo_prices tickers start_date end_date period download
      now = Except.ok rows) :
    ∀ r ∈ rows, r.close.isSome ∧ r.volume.isSome := by
  intro r hr
  unfold extract_yahoo_prices at h
  cases hdl : download (downloadRequest start_date end_date period) with
  | error e => rw [hdl] at h; cases h
  | ok data =>
    rw [hdl] at h
    cases data with
    | singleFrame rws =>
      cases tickers with
      | nil => cases h; cases hr
      | cons a tl =>
        cases tl with
        | nil => cases h; exact dropnaCloseVolume_mem hr
        | cons b tl2 => cases h; cases hr
    | groupedFrame groups =>
      cases tickers with
      | nil =>
        simp only [reshapeMulti, List.filterMap_nil, List.isEmpty_nil,
          if_true] at h
        cases h; cases hr
      | cons a tl =>
        cases tl with
        | nil => cases h
        | cons b tl2 =>
          dsimp only at h
          split at h
          · cases h; cases hr
          · cases h; exact dropnaCloseVolume_mem hr

/-- C7 witness: a single-ticker extraction whose raw frame has one complete
row and one row with a null `close`. -/
theorem extract_yahoo_prices_no_null_close_volume_witness :
    extract_yahoo_prices ["AAA"] none none "1y" dlSingleOk 7 =
      Except.ok [⟨"AAA", 0, none, none, none, some 1, none, some 2, 7⟩] ∧
    ∀ r ∈ [(⟨"AAA", 0, none, none, none, some 1, none, some 2, 7⟩ :
        PriceRow)], r.close.isSome ∧ r.volume.isSome :=
  ⟨rfl, fun r hr =>
    extract_yahoo_prices_no_null_close_volume ["AAA"] none none "1y"
      dlSingleOk 7 _ rfl r hr⟩

/-- C2: for a multi-symbol price extraction whose aggregate download
succeeds with a grouped frame, the call does not raise even if some
symbols are missing from the frame: it returns a table containing the
(complete) rows of every symbol that has data and containing no row for a
symbol without data; and the extraction raises only when the aggregate
download itself raised, in which case it re-raises that error. -/
theorem extract_yahoo_prices_partial_failure (tickers : List String)
    (start_date end_date : Option String) (period : String)
    (download : DownloadReq → Except String YfData) (now : Nat)
    (h2 : 2 ≤ tickers.length) :
    (∀ e, extract_yahoo_prices tickers start_date end_date period download
        now = Except.error e →
      download (downloadRequest start_date end_date period) =
        Except.error e) ∧
    (∀ groups,
      download (downloadRequest start_date end_date period) =
        Except.ok (YfData.groupedFrame groups) →
      ∃ rows,
        extract_yahoo_prices tickers start_date end_date period download
            now = Except.ok rows ∧
        (∀ t rs, t ∈ tickers → groups.lookup t = some rs → ∀ rr ∈ rs,
          rr.close.isSome → rr.volume.isSome →
          toPriceRow t now rr ∈ rows) ∧
        (∀ t, t ∈ tickers → groups.lookup t = none →
          ∀ pr ∈ rows, pr.symbol ≠ t)) := by
  obtain ⟨a, tl, rfl⟩ : ∃ a tl, tickers = a :: tl := by
    cases tickers with
    | nil => simp at h2
    | cons a tl => exact ⟨a, tl, rfl⟩
  obtain ⟨b, tl2, rfl⟩ : ∃ b tl2, tl = b :: tl2 := by
    cases tl with
    | nil => simp at h2
    | cons b tl2 => exact ⟨b, tl2, rfl⟩
  constructor
  · intro e he
    unfold extract_yahoo_prices at he
    cases hdl : download (downloadRequest start_date end_date period) with
    | error e' => rw [hdl] at he; cases he; rfl
    | ok data =>
      rw [hdl] at he
      cases data with
      | singleFrame rws => cases he
      | groupedFrame groups =>
        dsimp only at he
        split at he
        · cases he
        · cases he
  · intro groups hdl
    unfold extract_yahoo_prices
    rw [hdl]
    by_cases hemp : (reshapeMulti (a :: b :: tl2) groups).isEmpty
    · refine ⟨[], ?_, ?_, ?_⟩
      · dsimp only
        rw [if_pos hemp]
      · intro t rs ht hlook rr hrr hc hv
        exfalso
        have hmem : (t, rs) ∈ reshapeMulti (a :: b :: tl2) groups := by
          apply List.mem_filterMap.mpr
          exact ⟨t, ht, by rw [hlook]; rfl⟩
        rw [List.isEmpty_iff] at hemp
        rw [hemp] at hmem
        cases hmem
      · intro t ht hlook pr hpr
        cases hpr
    · refine ⟨dropnaCloseVolume ((reshapeMulti (a :: b :: tl2)
        groups).flatMap (fun g => g.2.map (toPriceRow g.1 now))),
        ?_, ?_, ?_⟩
      · dsimp only
        rw [if_neg hemp]
      · intro t rs ht hlook rr hrr hc hv
        apply List.mem_filter.mpr
        constructor
        · apply List.mem_flatMap.mpr
          refine ⟨(t, rs), ?_, ?_⟩
          · apply List.mem_filterMap.mpr
            exact ⟨t, ht, by rw [hlook]; rfl⟩
          · exact List.mem_map.mpr ⟨rr, hrr, rfl⟩
        · show ((toPriceRow t now rr).close.isSome &&
            (toPriceRow t now rr).volume.isSome) = true
          rw [Bool.and_eq_true]
          exact ⟨hc, hv⟩
      · intro t ht hlook pr hpr hsym
        have hpr' := (List.mem_filter.mp hpr).1
        obtain ⟨g, hg, hprg⟩ := List.mem_flatMap.mp hpr'
        obtain ⟨rr, hrr, rfl⟩ := List.mem_map.mp hprg
        obtain ⟨t', ht', hmap⟩ := List.mem_filterMap.mp hg
        cases hlook' : groups.lookup t' with
        | none => rw [hlook'] at hmap; cases hmap
        | some rs' =>
          rw [hlook'] at hmap
          cases hmap
          have : t' = t := hsym
          rw [this] at hlook'
          rw [hlook] at hlook'
          cases hlook'

/-- C2 witness: tickers `["AAA", "BBB"]` where the grouped frame has data
for `"AAA"` only. -/
theorem extract_yahoo_prices_partial_failure_witness :
    (∀ e, extract_yahoo_prices ["AAA", "BBB"] none none "1y" dlGroupedOk
        7 = Except.error e →
      dlGroupedOk (downloadRequest none none "1y") = Except.error e) ∧
    (∀ groups,
      dlGroupedOk (downloadRequest none none "1y") =
        Except.ok (YfData.groupedFrame groups) →
      ∃ rows,
        extract_yahoo_prices ["AAA", "BBB"] none none "1y" dlGroupedOk 7 =
            Except.ok rows ∧
        (∀ t rs, t ∈ (["AAA", "BBB"] : List String) →
          groups.lookup t = some rs → ∀ rr ∈ rs,
          rr.close.isSome → rr.volume.isSome → toPriceRow t 7 rr ∈ rows) ∧
        (∀ t, t ∈ (["AAA", "BBB"] : List String) →
          groups.lookup t = none → ∀ pr ∈ rows, pr.symbol ≠ t)) :=
  extract_yahoo_prices_partial_failure ["AAA", "BBB"] none none "1y"
    dlGroupedOk 7 (by decide)

/-! ## Digit rendering lemmas for the run id -/

/-- `padBase` always renders exactly `w` characters. -/
theorem padBase_length (b : Nat) : ∀ w n : Nat, (padBase b w n).length = w
  | 0, _ => rfl
  | w + 1, n => by simp [padBase, padBase_length b w]

/-- `Nat.digitChar` is strictly monotone on the digit range 0–15. -/
theorem digitChar_lt_digitChar {d1 d2 : Nat} (h2 : d2 ≤ 15) (h : d1 < d2) :
    Nat.digitChar d1 < Nat.digitChar d2 := by
  have h1 : d1 ≤ 15 := by omega
  interval_cases d1 <;> interval_cases d2 <;> revert h <;> decide

/-- `Nat.digitChar` is injective on the digit range 0–15. -/
theorem digitChar_inj {d1 d2 : Nat} (h1 : d1 ≤ 15) (h2 : d2 ≤ 15)
    (h : Nat.digitChar d1 = Nat.digitChar d2) : d1 = d2 := by
  rcases Nat.lt_trichotomy d1 d2 with hlt | heq | hgt
  · exact absurd h (ne_of_lt (digitChar_lt_digitChar h2 hlt))
  · exact heq
  · exact absurd h.symm (ne_of_lt (digitChar_lt_digitChar h1 hgt))

/-- Decimal digits of a number below `10 ^ w` render as digit characters. -/
theorem digitChar_isDigit {d : Nat} (hd : d ≤ 9) :
    (Nat.digitChar d).isDigit = true := by
  interval_cases d <;> decide

/-- Hex digits render as lowercase hexadecimal characters. -/
theorem digitChar_isLowerHex {d : Nat} (hd : d ≤ 15) :
    isLowerHexCh (Nat.digitChar d) = true := by
  interval_cases d <;> decide

/-- All characters of a fixed-width decimal rendering are digits. -/
theorem padBase_all_digit : ∀ {w n : Nat}, n < 10 ^ w →
    (padBase 10 w n).all Char.isDigit = true
  | 0, _, _ => rfl
  | w + 1, n, hn => by
    have hpos : 0 < 10 ^ w := pow_pos (by norm_num) w
    have hd : n / 10 ^ w ≤ 9 := by
      have h10 : n / 10 ^ w < 10 :=
        (Nat.div_lt_iff_lt_mul hpos).mpr (by rw [pow_succ] at hn; omega)
      omega
    have hmod : n % 10 ^ w < 10 ^ w := Nat.mod_lt _ hpos
    simp [padBase, digitChar_isDigit hd, padBase_all_digit hmod]

/-- All characters of a fixed-width hex rendering are lowercase hex. -/
theorem padBase_all_hex : ∀ {w n : Nat}, n < 16 ^ w →
    (padBase 16 w n).all isLowerHexCh = true
  | 0, _, _ => rfl
  | w + 1, n, hn => by
    have hpos : 0 < 16 ^ w := pow_pos (by norm_num) w
    have hd : n / 16 ^ w ≤ 15 := by
      have h16 : n / 16 ^ w < 16 :=
        (Nat.div_lt_iff_lt_mul hpos).mpr (by rw [pow_succ] at hn; omega)
      omega
    have hmod : n % 16 ^ w < 16 ^ w := Nat.mod_lt _ hpos
    simp [padBase, digitChar_isLowerHex hd, padBase_all_hex hmod]

/-- Lexicographic comparison of equal-width zero-padded decimal renderings
agrees with numeric comparison, whatever follows them. -/
theorem padBase_append_lt : ∀ {w m n : Nat}, m < n → n < 10 ^ w →
    ∀ xs ys : List Char, padBase 10 w m ++ xs < padBase 10 w n ++ ys := by
  intro w
  induction w with
  | zero => intro m n hmn hn xs ys; omega
  | succ w ih =>
    intro m n hmn hn xs ys
    have hpos : 0 < 10 ^ w := pow_pos (by norm_num) w
    have hnd : n / 10 ^ w ≤ 9 := by
      have h10 : n / 10 ^ w < 10 :=
        (Nat.div_lt_iff_lt_mul hpos).mpr (by rw [pow_succ] at hn; omega)
      omega
    rcases Nat.lt_or_ge (m / 10 ^ w) (n / 10 ^ w) with hlt | hge
    · exact List.Lex.rel
        (digitChar_lt_digitChar (by omega : n / 10 ^ w ≤ 15) hlt)
    · have hdle : m / 10 ^ w ≤ n / 10 ^ w :=
        Nat.div_le_div_right (le_of_lt hmn)
      have heq : m / 10 ^ w = n / 10 ^ w := le_antisymm hdle hge
      have hmod : m % 10 ^ w < n % 10 ^ w := by
        have hsum :
            10 ^ w * (m / 10 ^ w) + m % 10 ^ w <
              10 ^ w * (n / 10 ^ w) + n % 10 ^ w := by
          rw [Nat.div_add_mod, Nat.div_add_mod]; exact hmn
        rw [heq] at hsum
        exact Nat.lt_of_add_lt_add_left hsum
      have hmodn : n % 10 ^ w < 10 ^ w := Nat.mod_lt _ hpos
      have hchar :
          Nat.digitChar (m / 10 ^ w) = Nat.digitChar (n / 10 ^ w) := by
        rw [heq]
      have goal' :
          Nat.digitChar (m / 10 ^ w) :: (padBase 10 w (m % 10 ^ w) ++ xs) <
            Nat.digitChar (n / 10 ^ w) ::
              (padBase 10 w (n % 10 ^ w) ++ ys) := by
        rw [hchar]
        exact List.Lex.cons (ih hmod hmodn xs ys)
      exact goal'

/-- A shared prefix preserves lexicographic comparison of the suffixes. -/
theorem list_lt_append_left (l : List Char) {xs ys : List Char}
    (h : xs < ys) : l ++ xs < l ++ ys := by
  induction l with
  | nil => exact h
  | cons c cs ih => exact List.Lex.cons ih

/-- Fixed-width renderings below `b ^ w` are injective, and cancel on the
left of an append. -/
theorem padBase_inj {b : Nat} (hb : b ≤ 16) : ∀ {w m n : Nat},
    m < b ^ w → n < b ^ w → padBase b w m = padBase b w n → m = n
  | 0, m, n, hm, hn, _ => by rw [pow_zero] at hm hn; omega
  | w + 1, m, n, hm, hn, h => by
    have hbpos : 0 < b := by
      rcases Nat.eq_zero_or_pos b with rfl | hb0
      · simp at hm
      · exact hb0
    have hpos : 0 < b ^ w := pow_pos hbpos w
    simp only [padBase, List.cons.injEq] at h
    have hmd : m / b ^ w ≤ 15 := by
      have hmb : m / b ^ w < b :=
        (Nat.div_lt_iff_lt_mul hpos).mpr
          (by rw [pow_succ, Nat.mul_comm] at hm; exact hm)
      omega
    have hnd : n / b ^ w ≤ 15 := by
      have hnb : n / b ^ w < b :=
        (Nat.div_lt_iff_lt_mul hpos).mpr
          (by rw [pow_succ, Nat.mul_comm] at hn; exact hn)
      omega
    have hq : m / b ^ w = n / b ^ w := digitChar_inj hmd hnd h.1
    have hr : m % b ^ w = n % b ^ w :=
      padBase_inj hb (Nat.mod_lt _ hpos) (Nat.mod_lt _ hpos) h.2
    have hm' := Nat.div_add_mod m (b ^ w)
    have hn' := Nat.div_add_mod n (b ^ w)
    rw [← hm', ← hn', hq, hr]

/-- Equal-width renderings cancel against an appended tail. -/
theorem padBase_append_cancel {b w : Nat} (hb : b ≤ 16) {m n : Nat}
    {xs ys : List Char} (hm : m < b ^ w) (hn : n < b ^ w)
    (h : padBase b w m ++ xs = padBase b w n ++ ys) : m = n ∧ xs = ys := by
  have hlen : (padBase b w m).length = (padBase b w n).length := by
    rw [padBase_length, padBase_length]
  have h2 := List.append_inj h hlen
  exact ⟨padBase_inj hb hm hn h2.1, h2.2⟩

/-- C4: `generate_run_id` is total over its clock/random inputs (never
raises) and returns a string of the form
`run_<YYYYMMDD>_<HHMMSS>_<8 lowercase hex digits>` — the literal prefix,
eight digits, an underscore, six digits, an underscore, eight lowercase
hex characters; and ids whose clock readings fall in different seconds
compare lexicographically in clock order, whatever the random suffixes:
the later id is strictly greater. -/
theorem generate_run_id_format_and_sortable (t1 t2 : DateTime) (r1 r2 : Nat)
    (hv1 : t1.Valid) (hv2 : t2.Valid) (hr1 : r1 < 16 ^ 8)
    (hts : tsKey t1 < tsKey t2) :
    (∃ d8 t6 h8 : List Char,
      (generate_run_id t1 r1).data =
        'r' :: 'u' :: 'n' :: '_' :: (d8 ++ '_' :: (t6 ++ '_' :: h8)) ∧
      d8.length = 8 ∧ d8.all Char.isDigit = true ∧
      t6.length = 6 ∧ t6.all Char.isDigit = true ∧
      h8.length = 8 ∧ h8.all isLowerHexCh = true) ∧
    generate_run_id t1 r1 < generate_run_id t2 r2 := by
  unfold DateTime.Valid at hv1 hv2
  have e2 : (10 : ℕ) ^ 2 = 100 := by norm_num
  have e4 : (10 : ℕ) ^ 4 = 10000 := by norm_num
  constructor
  · refine ⟨padBase 10 4 t1.year ++
        (padBase 10 2 t1.month ++ padBase 10 2 t1.day),
      padBase 10 2 t1.hour ++
        (padBase 10 2 t1.minute ++ padBase 10 2 t1.second),
      padBase 16 8 r1, ?_, ?_, ?_, ?_, ?_, ?_, ?_⟩
    · show runIdChars t1 r1 = _
      simp [runIdChars, List.append_assoc]
    · simp [padBase_length]
    · simp [List.all_append,
        padBase_all_digit (show t1.year < 10 ^ 4 by omega),
        padBase_all_digit (show t1.month < 10 ^ 2 by omega),
        padBase_all_digit (show t1.day < 10 ^ 2 by omega)]
    · simp [padBase_length]
    · simp [List.all_append,
        padBase_all_digit (show t1.hour < 10 ^ 2 by omega),
        padBase_all_digit (show t1.minute < 10 ^ 2 by omega),
        padBase_all_digit (show t1.second < 10 ^ 2 by omega)]
    · simp [padBase_length]
    · exact padBase_all_hex hr1
  · rw [String.lt_iff_toList_lt]
    show runIdChars t1 r1 < runIdChars t2 r2
    have hfields : t1.year < t2.year ∨ (t1.year = t2.year ∧
        (t1.month < t2.month ∨ (t1.month = t2.month ∧
        (t1.day < t2.day ∨ (t1.day = t2.day ∧
        (t1.hour < t2.hour ∨ (t1.hour = t2.hour ∧
        (t1.minute < t2.minute ∨ (t1.minute = t2.minute ∧
        t1.second < t2.second))))))))) := by
      unfold tsKey at hts
      omega
    unfold runIdChars
    rcases hfields with hy |
      ⟨hy, hmo | ⟨hmo, hd | ⟨hd, hh | ⟨hh, hmi | ⟨hmi, hs⟩⟩⟩⟩⟩
    · exact list_lt_append_left ['r', 'u', 'n', '_']
        (padBase_append_lt hy (show t2.year < 10 ^ 4 by omega) _ _)
    · rw [hy]
      exact list_lt_append_left ['r', 'u', 'n', '_']
        (list_lt_append_left (padBase 10 4 t2.year)
          (padBase_append_lt hmo (show t2.month < 10 ^ 2 by omega) _ _))
    · rw [hy, hmo]
      exact list_lt_append_left ['r', 'u', 'n', '_']
        (list_lt_append_left (padBase 10 4 t2.year)
          (list_lt_append_left (padBase 10 2 t2.month)
            (padBase_append_lt hd (show t2.day < 10 ^ 2 by omega) _ _)))
    · rw [hy, hmo, hd]
      exact list_lt_append_left ['r', 'u', 'n', '_']
        (list_lt_append_left (padBase 10 4 t2.year)
          (list_lt_append_left (padBase 10 2 t2.month)
            (list_lt_append_left (padBase 10 2 t2.day)
              (List.Lex.cons
                (padBase_append_lt hh
                  (show t2.hour < 10 ^ 2 by omega) _ _)))))
    · rw [hy, hmo, hd, hh]
      exact list_lt_append_left ['r', 'u', 'n', '_']
        (list_lt_append_left (padBase 10 4 t2.year)
          (list_lt_append_left (padBase 10 2 t2.month)
            (list_lt_append_left (padBase 10 2 t2.day)
              (List.Lex.cons
                (list_lt_append_left (padBase 10 2 t2.hour)
                  (padBase_append_lt hmi
                    (show t2.minute < 10 ^ 2 by omega) _ _))))))
    · rw [hy, hmo, hd, hh, hmi]
      exact list_lt_append_left ['r', 'u', 'n', '_']
        (list_lt_append_left (padBase 10 4 t2.year)
          (list_lt_append_left (padBase 10 2 t2.month)
            (list_lt_append_left (padBase 10 2 t2.day)
              (List.Lex.cons
                (list_lt_append_left (padBase 10 2 t2.hour)
                  (list_lt_append_left (padBase 10 2 t2.minute)
                    (padBase_append_lt hs
                      (show t2.second < 10 ^ 2 by omega) _ _)))))))

/-- C4 witness at two concrete clock readings in different seconds and two
concrete random values. -/
theorem generate_run_id_format_and_sortable_witness :
    (∃ d8 t6 h8 : List Char,
      (generate_run_id dt0 7).data =
        'r' :: 'u' :: 'n' :: '_' :: (d8 ++ '_' :: (t6 ++ '_' :: h8)) ∧
      d8.length = 8 ∧ d8.all Char.isDigit = true ∧
      t6.length = 6 ∧ t6.all Char.isDigit = true ∧
      h8.length = 8 ∧ h8.all isLowerHexCh = true) ∧
    generate_run_id dt0 7 < generate_run_id dt1 9 :=
  generate_run_id_format_and_sortable dt0 dt1 7 9 (by decide) (by decide)
    (by decide) (by decide)

/-- C5 counterexample: two distinct calls made within the same clock
second for which the random source happens to return the same 32-bit value
produce equal run ids, so N calls in rapid succession are not
unconditionally pairwise distinct. -/
theorem run_id_uniqueness_cex :
    ¬ ([generate_run_id dt0 7, generate_run_id dt0 7].Pairwise (· ≠ ·)) := by
  intro h
  exact (List.pairwise_cons.mp h).1 (generate_run_id dt0 7)
    (List.mem_singleton.mpr rfl) rfl

/-- C5 amended: run ids are pairwise distinct whenever no two calls see
both the same clock second and the same random draw — `generate_run_id`
is injective on (valid clock reading, 32-bit suffix) pairs, so a
collision requires the 32-bit random value to repeat within one second. -/
theorem generate_run_id_inj (t1 t2 : DateTime) (r1 r2 : Nat)
    (hv1 : t1.Valid) (hv2 : t2.Valid) (hr1 : r1 < 16 ^ 8)
    (hr2 : r2 < 16 ^ 8)
    (heq : generate_run_id t1 r1 = generate_run_id t2 r2) :
    t1 = t2 ∧ r1 = r2 := by
  unfold DateTime.Valid at hv1 hv2
  have e2 : (10 : ℕ) ^ 2 = 100 := by norm_num
  have e4 : (10 : ℕ) ^ 4 = 10000 := by norm_num
  have hdata : runIdChars t1 r1 = runIdChars t2 r2 :=
    congrArg String.data heq
  unfold runIdChars at hdata
  simp only [List.cons.injEq, true_and] at hdata
  obtain ⟨hy, hdata⟩ := padBase_append_cancel (by norm_num)
    (show t1.year < 10 ^ 4 by omega) (show t2.year < 10 ^ 4 by omega) hdata
  obtain ⟨hmo, hdata⟩ := padBase_append_cancel (by norm_num)
    (show t1.month < 10 ^ 2 by omega) (show t2.month < 10 ^ 2 by omega)
    hdata
  obtain ⟨hd, hdata⟩ := padBase_append_cancel (by norm_num)
    (show t1.day < 10 ^ 2 by omega) (show t2.day < 10 ^ 2 by omega) hdata
  simp only [List.cons.injEq, true_and] at hdata
  obtain ⟨hh, hdata⟩ := padBase_append_cancel (by norm_num)
    (show t1.hour < 10 ^ 2 by omega) (show t2.hour < 10 ^ 2 by omega) hdata
  obtain ⟨hmi, hdata⟩ := padBase_append_cancel (by norm_num)
    (show t1.minute < 10 ^ 2 by omega) (show t2.minute < 10 ^ 2 by omega)
    hdata
  obtain ⟨hs, hdata⟩ := padBase_append_cancel (by norm_num)
    (show t1.second < 10 ^ 2 by omega) (show t2.second < 10 ^ 2 by omega)
    hdata
  simp only [List.cons.injEq, true_and] at hdata
  have hr : r1 = r2 := padBase_inj (by norm_num) hr1 hr2 hdata
  refine ⟨?_, hr⟩
  cases t1
  cases t2
  dsimp only at hy hmo hd hh hmi hs
  subst hy; subst hmo; subst hd; subst hh; subst hmi; subst hs
  rfl

/-- C5 amended witness: the injectivity applied at one concrete (clock,
random) pair. -/
theorem generate_run_id_inj_witness : dt0 = dt0 ∧ (7 : Nat) = 7 :=
  generate_run_id_inj dt0 dt0 7 7 (by decide) (by decide) (by decide)
    (by decide) rfl

end FinancePipeline
